import Mathlib

/-!
multicall-client: a shallow embedding of the Go sources.

The definitions below follow `multicall/multicall_client.go`,
`multicall/method_call.go`, `multicall/call_data.go` and
`static/call_static.go`.

Conventions of the embedding.

* A Go function either returns or panics: `Outcome α` has one constructor for
  each.  Multiple return values are a structure or a pair.
* `*big.Int` is `Option Int` (`none` is the nil pointer), `uint64` is `Nat`,
  `[]byte` is `List Nat`, a slice is a `List` and the nil slice is `[]`.
* An `error` value is `Option GoError` (`none` is the nil error).
* The go-ethereum library is not part of the repository.  Its ABI codec
  (`Arguments.Pack`, `Arguments.Unpack`), `common.HexToAddress` and the
  conversions whose reflection path is not the one generated bindings use are
  fields of `AbiLib`, so that every theorem holds for any behaviour of them.
* `BoundContract.Call` is the chain-client boundary.  The bound contract holds
  a stub `ContractCall → Except GoError (List Any)`; each operation also
  returns the list of the `ContractCall`s it made, in order.
* Elements of a `[]*MethodCall` are taken to be non-nil pointers.
-/

namespace Multicall

/-! ## Values -/

/-- Byte strings, `[]byte`. -/
abbrev Bytes := List Nat

/-- The go-ethereum `common.Address`. -/
abbrev CommonAddress := List Nat

/-- The go-ethereum `common.Hash`. -/
abbrev CommonHash := List Nat

/-- Dynamic values that travel through `any` in the sources. -/
inductive Any where
  | nil
  | bigInt (v : Int)
  | uint64 (v : Nat)
  | bool (b : Bool)
  | str (s : String)
  | address (a : CommonAddress)
  | hash (h : CommonHash)
  | bytes (b : Bytes)
  | bytesSlice (bs : List Bytes)
  | uint64Slice (vs : List Nat)
deriving DecidableEq, Repr

/-- Error values built by the repository, and those coming from go-ethereum. -/
inductive GoError where
  | ErrQuickCallRequired
  | ErrMulticallRequired
  | unknownVersion (v : Int)
  | unexpectedNumberOfResults (expected got : Nat)
  | methodNotFound (methodName : String)
  | external (msg : String)
deriving DecidableEq, Repr

/-- The text of an error, as `errors.New` and `fmt.Errorf` build it. -/
def GoError.Error : GoError → String
  | .ErrQuickCallRequired => "quickcall is required for this function"
  | .ErrMulticallRequired => "multicall is required for this function"
  | .unknownVersion v => "unknown version " ++ toString v
  | .unexpectedNumberOfResults expected got =>
      "unexpected number of results, expected " ++ toString expected ++ " but got " ++ toString got
  | .methodNotFound methodName => "method " ++ methodName ++ " not found"
  | .external msg => msg

/-- Run-time panics of the Go program. -/
inductive GoPanic where
  | error (e : GoError)
  | indexOutOfRange (index length : Nat)
  | nilDereference
  | convertType
deriving DecidableEq, Repr

/-- A Go call either returns a value or panics. -/
inductive Outcome (α : Type) where
  | returned (a : α)
  | panicked (p : GoPanic)
deriving DecidableEq, Repr

/-! ## ABI descriptions (go-ethereum `accounts/abi`) -/

structure Argument where
  Name : String
  Ty : String
  Indexed : Bool
deriving DecidableEq, Repr

abbrev Arguments := List Argument

structure AbiMethod where
  Name : String
  ID : Bytes
  Inputs : Arguments
  Outputs : Arguments
deriving DecidableEq, Repr

structure ABI where
  Methods : List (String × AbiMethod)
deriving DecidableEq, Repr

/-- The behaviour of go-ethereum that the repository relies on. -/
structure AbiLib where
  Pack : Arguments → List Any → Except GoError Bytes
  Unpack : Arguments → Bytes → Except GoError (List Any)
  HexToAddress : String → CommonAddress
  convertHashPtr : Any → Outcome (Option CommonHash)
  convertAddressPtr : Any → Outcome (Option CommonAddress)
  convertUint64 : Any → Outcome Nat

/-- The expression `*abi.ConvertType(x, new(*big.Int)).(**big.Int)`. -/
def convertBigInt : Any → Outcome (Option Int)
  | .bigInt v => .returned (some v)
  | _ => .panicked .convertType

/-- The expression `*abi.ConvertType(x, new([][]byte)).(*[][]byte)`. -/
def convertBytesSlice : Any → Outcome (List Bytes)
  | .bytesSlice bs => .returned bs
  | _ => .panicked .convertType

/-- The expression `*abi.ConvertType(x, new([]uint64)).(*[]uint64)`. -/
def convertUint64Slice : Any → Outcome (List Nat)
  | .uint64Slice vs => .returned vs
  | _ => .panicked .convertType

/-! ## method_call.go, call_data.go -/

structure MethodCall where
  Address : CommonAddress
  Method : AbiMethod
  Args : List Any
deriving DecidableEq, Repr

def NewMethodCall (address : CommonAddress) (method : AbiMethod) (args : List Any) : MethodCall :=
  { Address := address, Method := method, Args := args }

def MethodCall.getCallData (lib : AbiLib) (c : MethodCall) : Except GoError Bytes :=
  match lib.Pack c.Method.Inputs c.Args with
  | .error err => .error err
  | .ok data => .ok (c.Method.ID ++ data)

structure callData where
  Target : CommonAddress
  CallData : Bytes
deriving DecidableEq, Repr

def newCallData (lib : AbiLib) (method : MethodCall) : Except GoError callData :=
  match method.getCallData lib with
  | .error err => .error err
  | .ok data => .ok { Target := method.Address, CallData := data }

/-! ## multicall_client.go -/

def defaultGasLimit : Int := 60000

def defaultSizeLimit : Int := 1024

abbrev Version := Int

def V1 : Version := 0

def QuickCall : Version := 1

/-- The two embedded ABI documents, as `bind.MetaData.GetAbi` yields them. -/
structure Embedded where
  multicallV1 : Except GoError ABI
  quickcall : Except GoError ABI

def Version.getAbi (emb : Embedded) (v : Version) : Except GoError ABI :=
  if v = V1 then emb.multicallV1
  else if v = QuickCall then emb.quickcall
  else .error (.unknownVersion v)

structure CallOpts where
  Pending : Bool
  From : CommonAddress
  BlockNumber : Option Int
deriving DecidableEq, Repr

/-- Parameters handed to `BoundContract.Call`. -/
inductive Param where
  | calls (cs : List callData)
  | bigInt (v : Option Int)
  | addresses (targets : List CommonAddress)
  | bytesSlice (data : List Bytes)
  | address (a : CommonAddress)
deriving DecidableEq, Repr

/-- One invocation of `BoundContract.Call`. -/
structure ContractCall where
  opts : Option CallOpts
  method : String
  params : List Param
deriving DecidableEq, Repr

/-- The chain client behind a bound contract: what `Call` puts in `out`, or its error. -/
abbrev ChainClient := ContractCall → Except GoError (List Any)

structure BoundContract where
  address : CommonAddress
  abi : ABI
  caller : ChainClient

structure Client where
  client : ChainClient
  address : CommonAddress
  contract : BoundContract
  version : Version

def New (lib : AbiLib) (emb : Embedded) (address : String) (version : Version)
    (client : ChainClient) : Except GoError Client :=
  match Version.getAbi emb version with
  | .error err => .error err
  | .ok parsed =>
    let addr := lib.HexToAddress address
    .ok { client := client, address := addr,
          contract := { address := addr, abi := parsed, caller := client },
          version := version }

/-- The loop of `methodCallsToCallData`, `structs` being the slice built so far. -/
def methodCallsToCallDataLoop (lib : AbiLib) : List MethodCall → List callData → Except GoError (List callData)
  | [], structs => .ok structs
  | call :: rest, structs =>
    match call.getCallData lib with
    | .error err => .error err
    | .ok data =>
      methodCallsToCallDataLoop lib rest (structs ++ [{ Target := call.Address, CallData := data }])

def methodCallsToCallData (lib : AbiLib) (calls : List MethodCall) : Except GoError (List callData) :=
  methodCallsToCallDataLoop lib calls []

/-- How one call entry is derived from one method call, `d` being the packed arguments. -/
def entryOf (lib : AbiLib) (m : MethodCall) (c : callData) : Prop :=
  ∃ d, lib.Pack m.Method.Inputs m.Args = .ok d
    ∧ c = { Target := m.Address, CallData := m.Method.ID ++ d }

/-- What `unpackResults` leaves: the returned error and its own `results` slice at that point.
The caller passed its slice header by value, so the caller does not see `results`. -/
structure UnpackReturn where
  err : Option GoError
  results : List Any
deriving DecidableEq, Repr

/-- The loop of `unpackResults` from index `i` on; `results` is the local slice. -/
def unpackResultsLoop (lib : AbiLib) (raw : List Bytes) :
    Nat → List MethodCall → List Any → Outcome UnpackReturn
  | _, [], results => .returned { err := none, results := results }
  | i, call :: rest, results =>
    match raw[i]? with
    | none => .panicked (.indexOutOfRange i raw.length)
    | some r =>
      if r.length = 0 then
        if i < results.length then
          unpackResultsLoop lib raw (i + 1) rest (results.set i .nil)
        else .panicked (.indexOutOfRange i results.length)
      else
        match lib.Unpack call.Method.Outputs r with
        | .error err => .returned { err := some err, results := results }
        | .ok unpack => unpackResultsLoop lib raw (i + 1) rest (results ++ unpack)

def unpackResults (lib : AbiLib) (results : List Any) (raw : List Bytes)
    (methods : List MethodCall) : Outcome UnpackReturn :=
  if raw.length ≠ methods.length then
    .returned { err := some (.unexpectedNumberOfResults methods.length raw.length), results := results }
  else unpackResultsLoop lib raw 0 methods results

structure AggregateReturn where
  blockNumber : Option Int
  results : List Any
  err : Option GoError
deriving DecidableEq, Repr

/-- The part of `Aggregate` after a successful `Call`; `results` is the named result, still nil. -/
def aggregateBuild (lib : AbiLib) (methods : List MethodCall) (out : List Any) :
    Outcome AggregateReturn :=
  let results : List Any := []
  match out[0]? with
  | none => .panicked (.indexOutOfRange 0 out.length)
  | some o0 =>
    match convertBigInt o0 with
    | .panicked p => .panicked p
    | .returned blockNumber =>
      match out[1]? with
      | none => .panicked (.indexOutOfRange 1 out.length)
      | some o1 =>
        match convertBytesSlice o1 with
        | .panicked p => .panicked p
        | .returned raw =>
          match unpackResults lib results raw methods with
          | .panicked p => .panicked p
          | .returned u =>
            match u.err with
            | some err => .returned { blockNumber := none, results := [], err := some err }
            | none => .returned { blockNumber := blockNumber, results := results, err := none }

def Client.Aggregate (lib : AbiLib) (client : Client) (opts : Option CallOpts)
    (methods : List MethodCall) : Outcome AggregateReturn × List ContractCall :=
  if client.version = QuickCall then
    (.returned { blockNumber := none, results := [], err := some .ErrMulticallRequired }, [])
  else
    match methodCallsToCallData lib methods with
    | .error err => (.panicked (.error err), [])
    | .ok calls =>
      let call : ContractCall := { opts := opts, method := "aggregate", params := [.calls calls] }
      match client.contract.caller call with
      | .error err => (.returned { blockNumber := none, results := [], err := some err }, [call])
      | .ok out => (aggregateBuild lib methods out, [call])

structure QuickCallResult where
  Status : Nat
  Result : Any
deriving DecidableEq, Repr

structure QuickCallResults where
  BlockNumber : Option Int
  Results : List QuickCallResult
deriving DecidableEq, Repr

def QuickCallResult.IsStatusZero (qcr : QuickCallResult) : Bool :=
  qcr.Status == 0

structure ExecuteReturn where
  result : Option QuickCallResults
  err : Option GoError
deriving DecidableEq, Repr

/-- The loop that extracts `addresses` and `data` from the call list in `Execute`. -/
def splitCalls : List callData → List CommonAddress × List Bytes → List CommonAddress × List Bytes
  | [], acc => acc
  | call :: rest, (addresses, data) =>
    splitCalls rest (addresses ++ [call.Target], data ++ [call.CallData])

/-- The final loop of `Execute`: entry `i` pairs `statuses[i]` with `results[i]`. -/
def zipStatuses (results : List Any) : Nat → List Nat → Outcome (List QuickCallResult)
  | _, [] => .returned []
  | i, status :: rest =>
    match results[i]? with
    | none => .panicked (.indexOutOfRange i results.length)
    | some r =>
      match zipStatuses results (i + 1) rest with
      | .panicked p => .panicked p
      | .returned qs => .returned ({ Status := status, Result := r } :: qs)

/-- The part of `Execute` after a successful `Call`; `result` is the named result, a pointer
that the function never allocates. -/
def executeBuild (lib : AbiLib) (methods : List MethodCall) (out : List Any) :
    Outcome ExecuteReturn :=
  let result : Option QuickCallResults := none
  match out[0]? with
  | none => .panicked (.indexOutOfRange 0 out.length)
  | some o0 =>
    match convertBigInt o0 with
    | .panicked p => .panicked p
    | .returned blockNumber =>
      match result with
      | none => .panicked .nilDereference
      | some res =>
        match out[1]? with
        | none => .panicked (.indexOutOfRange 1 out.length)
        | some o1 =>
          match convertUint64Slice o1 with
          | .panicked p => .panicked p
          | .returned statuses =>
            match out[2]? with
            | none => .panicked (.indexOutOfRange 2 out.length)
            | some o2 =>
              match convertBytesSlice o2 with
              | .panicked p => .panicked p
              | .returned raw =>
                let results : List Any := []
                match unpackResults lib results raw methods with
                | .panicked p => .panicked p
                | .returned u =>
                  match u.err with
                  | some err => .returned { result := none, err := some err }
                  | none =>
                    match zipStatuses results 0 statuses with
                    | .panicked p => .panicked p
                    | .returned qs =>
                      .returned { result := some { res with BlockNumber := blockNumber, Results := qs },
                                  err := none }

def Client.Execute (lib : AbiLib) (client : Client) (opts : Option CallOpts)
    (gasLimitPerCall : Option Int) (resultSizeLimit : Option Int)
    (methods : List MethodCall) : Outcome ExecuteReturn × List ContractCall :=
  if client.version ≠ QuickCall then
    (.returned { result := none, err := some .ErrQuickCallRequired }, [])
  else
    let gasLimitPerCall : Option Int :=
      if gasLimitPerCall = none then some defaultGasLimit else gasLimitPerCall
    let resultSizeLimit : Option Int :=
      if resultSizeLimit = none then some defaultSizeLimit else resultSizeLimit
    match methodCallsToCallData lib methods with
    | .error err => (.panicked (.error err), [])
    | .ok calls =>
      let split := splitCalls calls ([], [])
      let call : ContractCall :=
        { opts := opts, method := "execute",
          params := [.bigInt gasLimitPerCall, .bigInt resultSizeLimit,
                     .addresses split.1, .bytesSlice split.2] }
      match client.contract.caller call with
      | .error err => (.returned { result := none, err := some err }, [call])
      | .ok out => (executeBuild lib methods out, [call])

/-- The shape shared by the V1-only getters: the version guard, one `Call` with nil options,
then the conversion of `out[0]`; `zero` is the zero value returned next to an error. -/
def getter {α : Type} (client : Client) (method : String) (params : List Param) (zero : α)
    (convert : Any → Outcome α) : Outcome (α × Option GoError) × List ContractCall :=
  if client.version = QuickCall then
    (.returned (zero, some .ErrMulticallRequired), [])
  else
    let call : ContractCall := { opts := none, method := method, params := params }
    match client.contract.caller call with
    | .error err => (.returned (zero, some err), [call])
    | .ok out =>
      match out[0]? with
      | none => (.panicked (.indexOutOfRange 0 out.length), [call])
      | some o0 =>
        match convert o0 with
        | .panicked p => (.panicked p, [call])
        | .returned v => (.returned (v, none), [call])

def Client.GetEthBalance (client : Client) (address : CommonAddress) :
    Outcome (Option Int × Option GoError) × List ContractCall :=
  getter client "getEthBalance" [.address address] none convertBigInt

def Client.GetBlockHash (lib : AbiLib) (client : Client) (blockNumber : Option Int) :
    Outcome (Option CommonHash × Option GoError) × List ContractCall :=
  getter client "getBlockHash" [.bigInt blockNumber] none lib.convertHashPtr

def Client.GetLastBlockHash (lib : AbiLib) (client : Client) :
    Outcome (Option CommonHash × Option GoError) × List ContractCall :=
  getter client "getLastBlockHash" [] none lib.convertHashPtr

def Client.GetCurrentBlockTimestamp (lib : AbiLib) (client : Client) :
    Outcome (Nat × Option GoError) × List ContractCall :=
  getter client "getCurrentBlockTimestamp" [] 0 lib.convertUint64

def Client.GetCurrentBlockDifficulty (client : Client) :
    Outcome (Option Int × Option GoError) × List ContractCall :=
  getter client "getCurrentBlockDifficulty" [] none convertBigInt

def Client.GetCurrentBlockGasLimit (client : Client) :
    Outcome (Option Int × Option GoError) × List ContractCall :=
  getter client "getCurrentBlockGasLimit" [] none convertBigInt

def Client.GetCurrentBlockCoinbase (lib : AbiLib) (client : Client) :
    Outcome (Option CommonAddress × Option GoError) × List ContractCall :=
  getter client "getCurrentBlockCoinbase" [] none lib.convertAddressPtr

end Multicall

namespace Static

open Multicall

/-! ## static/call_static.go -/

/-- An entry of go-ethereum's `types.AccessList`. -/
structure AccessTuple where
  Address : CommonAddress
  StorageKeys : List CommonHash
deriving DecidableEq, Repr

structure Opts where
  From : CommonAddress
  To : CommonAddress
  Gas : Nat
  GasPrice : Option Int
  GasFeeCap : Option Int
  GasTipCap : Option Int
  Value : Option Int
  AccessLists : List AccessTuple
deriving DecidableEq, Repr

/-- The go-ethereum `ethereum.CallMsg`; `To` is a pointer there. -/
structure CallMsg where
  From : CommonAddress
  To : Option CommonAddress
  Data : Bytes
  Gas : Nat
  GasPrice : Option Int
  GasFeeCap : Option Int
  GasTipCap : Option Int
  Value : Option Int
  AccessList : List AccessTuple
deriving DecidableEq, Repr

/-- The chain client as `callStatic` uses it: `CallContract(ctx, msg, nil)`. -/
abbrev EthClient := CallMsg → Except GoError Bytes

structure StaticReturn where
  results : List Any
  err : Option GoError
deriving DecidableEq, Repr

def callStatic (lib : AbiLib) (client : EthClient) (opts : Option Opts) (method : AbiMethod)
    (args : List Any) : Outcome StaticReturn × List CallMsg :=
  match lib.Pack method.Inputs args with
  | .error err => (.returned { results := [], err := some err }, [])
  | .ok arguments =>
    match opts with
    | none => (.panicked .nilDereference, [])
    | some opts =>
      let msg : CallMsg :=
        { From := opts.From, To := some opts.To, Data := method.ID ++ arguments,
          Gas := opts.Gas, GasPrice := opts.GasPrice, GasFeeCap := opts.GasFeeCap,
          GasTipCap := opts.GasTipCap, Value := opts.Value, AccessList := opts.AccessLists }
      match client msg with
      | .error err => (.returned { results := [], err := some err }, [msg])
      | .ok result =>
        match lib.Unpack method.Outputs result with
        | .error err => (.returned { results := [], err := some err }, [msg])
        | .ok results => (.returned { results := results, err := none }, [msg])

def CallStaticWithName (lib : AbiLib) (client : EthClient) (abi : Option ABI) (opts : Option Opts)
    (methodName : String) (args : List Any) : Outcome StaticReturn × List CallMsg :=
  match abi with
  | none => (.panicked .nilDereference, [])
  | some abi =>
    match abi.Methods.lookup methodName with
    | none => (.returned { results := [], err := some (.methodNotFound methodName) }, [])
    | some method => callStatic lib client opts method args

def CallStaticWithMethod (lib : AbiLib) (client : EthClient) (opts : Option Opts)
    (method : AbiMethod) (args : List Any) : Outcome StaticReturn × List CallMsg :=
  callStatic lib client opts method args

end Static

/-! ## Concrete collaborators used to evaluate the definitions -/

namespace Multicall

/-- Big-endian value of a byte string. -/
def beValue (b : Bytes) : Int :=
  b.foldl (fun acc x => acc * 256 + (x : Int)) 0

/-- One argument of the sample codec: an address is its bytes, a small integer one byte. -/
def sampleEncode : Any → Option Bytes
  | .address a => some a
  | .bigInt v => if 0 ≤ v ∧ v < 256 then some [v.toNat] else none
  | _ => none

def samplePackArgs : List Any → Option Bytes
  | [] => some []
  | a :: rest =>
    match sampleEncode a, samplePackArgs rest with
    | some x, some xs => some (x ++ xs)
    | _, _ => none

/-- A small codec standing for go-ethereum in concrete evaluations: packing wants one
value per declared input, unpacking reads a non-empty blob for a single declared output
as one big-endian integer. -/
def sampleLib : AbiLib where
  Pack := fun inputs args =>
    if inputs.length = args.length then
      match samplePackArgs args with
      | some b => .ok b
      | none => .error (.external "abi: cannot pack argument")
    else .error (.external "argument count mismatch")
  Unpack := fun outputs data =>
    if outputs.length = 1 ∧ data ≠ [] then .ok [Any.bigInt (beValue data)]
    else .error (.external "abi: cannot unmarshal")
  HexToAddress := fun s => s.toList.map Char.toNat
  convertHashPtr := fun _ => .panicked .convertType
  convertAddressPtr := fun _ => .panicked .convertType
  convertUint64 := fun _ => .panicked .convertType

def uint256Arg (argName : String) : Argument :=
  { Name := argName, Ty := "uint256", Indexed := false }

def addressArg (argName : String) : Argument :=
  { Name := argName, Ty := "address", Indexed := false }

/-- The ERC-20 `balanceOf(address)` method. -/
def balanceOfMethod : AbiMethod :=
  { Name := "balanceOf", ID := [0x70, 0xa0, 0x82, 0x31],
    Inputs := [addressArg "owner"], Outputs := [uint256Arg "balance"] }

/-- The ERC-20 `totalSupply()` method. -/
def totalSupplyMethod : AbiMethod :=
  { Name := "totalSupply", ID := [0x18, 0x16, 0x0d, 0xdd],
    Inputs := [], Outputs := [uint256Arg "supply"] }

def tokenAddress : CommonAddress := [0xaa, 0xbb]

def addr1 : CommonAddress := [0x01, 0x02]

def balanceOfCall : MethodCall := NewMethodCall tokenAddress balanceOfMethod [.address addr1]

def totalSupplyCall : MethodCall := NewMethodCall tokenAddress totalSupplyMethod []

/-- A call whose arguments do not match the declared inputs. -/
def badCall : MethodCall := NewMethodCall tokenAddress balanceOfMethod []

/-- A chain client that answers every call with the same `out`. -/
def constChain (out : List Any) : ChainClient := fun _ => .ok out

def sampleAbi : ABI :=
  { Methods := [("balanceOf", balanceOfMethod), ("totalSupply", totalSupplyMethod)] }

/-- Embedded ABI documents that both parse. -/
def sampleEmbedded : Embedded :=
  { multicallV1 := .ok sampleAbi, quickcall := .ok sampleAbi }

/-- A client of the given version over the given chain client. -/
def sampleClient (version : Version) (chain : ChainClient) : Client :=
  { client := chain, address := tokenAddress,
    contract := { address := tokenAddress, abi := sampleAbi, caller := chain },
    version := version }

end Multicall


namespace Static

open Multicall

/-- Options of a plain simulated call. -/
def sampleOpts : Opts :=
  { From := addr1, To := tokenAddress, Gas := 0, GasPrice := none, GasFeeCap := none,
    GasTipCap := none, Value := none, AccessLists := [] }

/-- A chain client that answers every message with the same bytes. -/
def constEth (result : Bytes) : EthClient := fun _ => .ok result

end Static

/-! ## Theorems -/

namespace Multicall

/-! ### Helper lemmas -/

theorem V1_ne_QuickCall : V1 ≠ QuickCall := by decide

theorem getter_guard {α : Type} (client : Client) (h : client.version = QuickCall)
    (method : String) (params : List Param) (zero : α) (convert : Any → Outcome α) :
    getter client method params zero convert
      = (.returned (zero, some .ErrMulticallRequired), []) := by
  simp [getter, h]

theorem splitCalls_eq (calls : List callData) :
    ∀ acc : List CommonAddress × List Bytes,
      splitCalls calls acc
        = (acc.1 ++ calls.map (fun c => c.Target), acc.2 ++ calls.map (fun c => c.CallData)) := by
  induction calls with
  | nil => intro acc; simp [splitCalls]
  | cons c rest ih =>
    intro acc
    obtain ⟨a, d⟩ := acc
    simp [splitCalls, ih]

theorem methodCallsToCallDataLoop_ok (lib : AbiLib) (ms : List MethodCall) :
    ∀ acc : List callData,
      (∀ m ∈ ms, ∃ d, lib.Pack m.Method.Inputs m.Args = .ok d) →
      ∃ cs, methodCallsToCallDataLoop lib ms acc = .ok (acc ++ cs)
        ∧ List.Forall₂ (entryOf lib) ms cs := by
  induction ms with
  | nil => intro acc _; exact ⟨[], by simp [methodCallsToCallDataLoop], List.Forall₂.nil⟩
  | cons m rest ih =>
    intro acc h
    obtain ⟨d, hd⟩ := h m (List.mem_cons_self _ _)
    obtain ⟨cs, hcs, hall⟩ :=
      ih (acc ++ [{ Target := m.Address, CallData := m.Method.ID ++ d }])
        (fun x hx => h x (List.mem_cons_of_mem _ hx))
    refine ⟨{ Target := m.Address, CallData := m.Method.ID ++ d } :: cs, ?_,
      List.Forall₂.cons ⟨d, hd, rfl⟩ hall⟩
    simp [methodCallsToCallDataLoop, MethodCall.getCallData, hd, hcs]

theorem methodCallsToCallDataLoop_error (lib : AbiLib) (ms : List MethodCall) :
    ∀ acc : List callData,
      (∃ m ∈ ms, ∃ e, lib.Pack m.Method.Inputs m.Args = .error e) →
      ∃ e, methodCallsToCallDataLoop lib ms acc = .error e
        ∧ ∃ m ∈ ms, lib.Pack m.Method.Inputs m.Args = .error e := by
  induction ms with
  | nil => intro acc h; obtain ⟨m, hm, _⟩ := h; simp at hm
  | cons m rest ih =>
    intro acc h
    cases hp : lib.Pack m.Method.Inputs m.Args with
    | error e =>
      exact ⟨e, by simp [methodCallsToCallDataLoop, MethodCall.getCallData, hp],
        m, List.mem_cons_self _ _, hp⟩
    | ok d =>
      have h2 : ∃ x ∈ rest, ∃ e, lib.Pack x.Method.Inputs x.Args = .error e := by
        obtain ⟨x, hx, e, he⟩ := h
        rcases List.mem_cons.mp hx with rfl | hx
        · rw [hp] at he; cases he
        · exact ⟨x, hx, e, he⟩
      obtain ⟨e, he, x, hx, hxe⟩ :=
        ih (acc ++ [{ Target := m.Address, CallData := m.Method.ID ++ d }]) h2
      exact ⟨e, by simp [methodCallsToCallDataLoop, MethodCall.getCallData, hp, he],
        x, List.mem_cons_of_mem _ hx, hxe⟩

/-- The one call `Execute` makes once the method list has been encoded to `calls`. -/
theorem Execute_trace (lib : AbiLib) (client : Client) (opts : Option CallOpts)
    (gasLimitPerCall resultSizeLimit : Option Int) (methods : List MethodCall)
    (calls : List callData) (hq : client.version = QuickCall)
    (hc : methodCallsToCallData lib methods = .ok calls) :
    (client.Execute lib opts gasLimitPerCall resultSizeLimit methods).2
      = [{ opts := opts, method := "execute",
           params := [.bigInt (some (gasLimitPerCall.getD 60000)),
                      .bigInt (some (resultSizeLimit.getD 1024)),
                      .addresses (calls.map (fun c => c.Target)),
                      .bytesSlice (calls.map (fun c => c.CallData))] }] := by
  have hg : (if gasLimitPerCall = none then some defaultGasLimit else gasLimitPerCall)
      = some (gasLimitPerCall.getD 60000) := by
    cases gasLimitPerCall <;> simp [defaultGasLimit]
  have hs : (if resultSizeLimit = none then some defaultSizeLimit else resultSizeLimit)
      = some (resultSizeLimit.getD 1024) := by
    cases resultSizeLimit <;> simp [defaultSizeLimit]
  simp only [Client.Execute, hq, hc, hg, hs, splitCalls_eq, ne_eq, not_true_eq_false, if_false,
    List.nil_append]
  split <;> rfl

/-- C1. An operation invoked on a client bound to the other version returns the version
error and makes no chain-client call, whatever the codec does: the eight V1 operations on a
QuickCall client return `ErrMulticallRequired`, and `Execute` on a V1 client returns
`ErrQuickCallRequired`. -/
theorem version_mismatch_fails_fast (lib : AbiLib) (qc v1 : Client)
    (hq : qc.version = QuickCall) (hv : v1.version = V1)
    (opts : Option CallOpts) (methods : List MethodCall) (address : CommonAddress)
    (blockNumber gasLimitPerCall resultSizeLimit : Option Int) :
    qc.Aggregate lib opts methods
        = (.returned { blockNumber := none, results := [], err := some .ErrMulticallRequired }, [])
    ∧ qc.GetEthBalance address = (.returned (none, some .ErrMulticallRequired), [])
    ∧ qc.GetBlockHash lib blockNumber = (.returned (none, some .ErrMulticallRequired), [])
    ∧ qc.GetLastBlockHash lib = (.returned (none, some .ErrMulticallRequired), [])
    ∧ qc.GetCurrentBlockTimestamp lib = (.returned (0, some .ErrMulticallRequired), [])
    ∧ qc.GetCurrentBlockDifficulty = (.returned (none, some .ErrMulticallRequired), [])
    ∧ qc.GetCurrentBlockGasLimit = (.returned (none, some .ErrMulticallRequired), [])
    ∧ qc.GetCurrentBlockCoinbase lib = (.returned (none, some .ErrMulticallRequired), [])
    ∧ v1.Execute lib opts gasLimitPerCall resultSizeLimit methods
        = (.returned { result := none, err := some .ErrQuickCallRequired }, []) := by
  have hne : v1.version ≠ QuickCall := by rw [hv]; exact V1_ne_QuickCall
  refine ⟨?_, ?_, ?_, ?_, ?_, ?_, ?_, ?_, ?_⟩
  · simp [Client.Aggregate, hq]
  · exact getter_guard qc hq _ _ _ _
  · exact getter_guard qc hq _ _ _ _
  · exact getter_guard qc hq _ _ _ _
  · exact getter_guard qc hq _ _ _ _
  · exact getter_guard qc hq _ _ _ _
  · exact getter_guard qc hq _ _ _ _
  · exact getter_guard qc hq _ _ _ _
  · simp [Client.Execute, hne]

/-- Witness of C1: a QuickCall client and a V1 client over a chain client that would answer,
with a method list whose second entry cannot be encoded. -/
theorem version_mismatch_fails_fast_witness :
    (sampleClient QuickCall (constChain [.bigInt 100, .bytesSlice []])).version = QuickCall
    ∧ (sampleClient V1 (constChain [.bigInt 100, .bytesSlice []])).version = V1
    ∧ (sampleClient QuickCall (constChain [.bigInt 100, .bytesSlice []])).Aggregate sampleLib none
          [balanceOfCall, badCall]
        = (.returned { blockNumber := none, results := [], err := some .ErrMulticallRequired }, [])
    ∧ (sampleClient V1 (constChain [.bigInt 100, .bytesSlice []])).Execute sampleLib none none none
          [balanceOfCall, badCall]
        = (.returned { result := none, err := some .ErrQuickCallRequired }, []) :=
  have h := version_mismatch_fails_fast sampleLib
    (sampleClient QuickCall (constChain [.bigInt 100, .bytesSlice []]))
    (sampleClient V1 (constChain [.bigInt 100, .bytesSlice []])) rfl rfl none
    [balanceOfCall, badCall] addr1 none none none
  ⟨rfl, rfl, h.1, h.2.2.2.2.2.2.2.2⟩

/-- C4. When the aggregator returns a raw-result list whose length differs from the number
of methods, `unpackResults` returns the result-count error with its `results` untouched
(for any codec, so nothing was decoded), and `Aggregate` returns that error with a nil block
number and nil results. -/
theorem result_count_mismatch (lib : AbiLib) (client : Client) (opts : Option CallOpts)
    (methods : List MethodCall) (calls : List callData) (bn : Int) (raw : List Bytes)
    (results : List Any)
    (hv : client.version ≠ QuickCall)
    (hc : methodCallsToCallData lib methods = .ok calls)
    (hout : client.contract.caller { opts := opts, method := "aggregate", params := [.calls calls] }
              = .ok [.bigInt bn, .bytesSlice raw])
    (hlen : raw.length ≠ methods.length) :
    unpackResults lib results raw methods
        = .returned { err := some (.unexpectedNumberOfResults methods.length raw.length),
                      results := results }
    ∧ client.Aggregate lib opts methods
        = (.returned { blockNumber := none, results := [],
                       err := some (.unexpectedNumberOfResults methods.length raw.length) },
           [{ opts := opts, method := "aggregate", params := [.calls calls] }]) := by
  have hu : ∀ rs, unpackResults lib rs raw methods
      = .returned { err := some (.unexpectedNumberOfResults methods.length raw.length),
                    results := rs } := by
    intro rs
    simp [unpackResults, hlen]
  refine ⟨hu results, ?_⟩
  simp [Client.Aggregate, hv, hc, hout, aggregateBuild, convertBigInt, convertBytesSlice, hu]

/-- Witness of C4: three methods submitted, two raw results returned. -/
theorem result_count_mismatch_witness :
    (sampleClient V1 (constChain [.bigInt 100, .bytesSlice [[1], [2]]])).Aggregate sampleLib none
        [totalSupplyCall, totalSupplyCall, totalSupplyCall]
      = (.returned { blockNumber := none, results := [],
                     err := some (.unexpectedNumberOfResults 3 2) },
         [{ opts := none, method := "aggregate",
            params := [.calls [⟨tokenAddress, [0x18, 0x16, 0x0d, 0xdd]⟩,
                               ⟨tokenAddress, [0x18, 0x16, 0x0d, 0xdd]⟩,
                               ⟨tokenAddress, [0x18, 0x16, 0x0d, 0xdd]⟩]] }]) :=
  (result_count_mismatch sampleLib (sampleClient V1 (constChain [.bigInt 100, .bytesSlice [[1], [2]]]))
    none [totalSupplyCall, totalSupplyCall, totalSupplyCall]
    [⟨tokenAddress, [0x18, 0x16, 0x0d, 0xdd]⟩, ⟨tokenAddress, [0x18, 0x16, 0x0d, 0xdd]⟩,
     ⟨tokenAddress, [0x18, 0x16, 0x0d, 0xdd]⟩] 100 [[1], [2]] []
    (by decide) rfl rfl (by decide)).2

/-- C6. On a QuickCall client with an encodable method list, `Execute` makes exactly one
chain-client call, to `execute`, whose gas limit is 60000 when `gasLimitPerCall` is nil and
the caller's value otherwise, and whose result size limit is 1024 when `resultSizeLimit` is
nil and the caller's value otherwise; each default depends on its own argument only. -/
theorem execute_defaults (lib : AbiLib) (client : Client) (opts : Option CallOpts)
    (gasLimitPerCall resultSizeLimit : Option Int) (methods : List MethodCall)
    (calls : List callData) (hq : client.version = QuickCall)
    (hc : methodCallsToCallData lib methods = .ok calls) :
    ∃ targets data,
      (client.Execute lib opts gasLimitPerCall resultSizeLimit methods).2
        = [{ opts := opts, method := "execute",
             params := [.bigInt (some (match gasLimitPerCall with
                                       | none => 60000
                                       | some g => g)),
                        .bigInt (some (match resultSizeLimit with
                                       | none => 1024
                                       | some s => s)),
                        .addresses targets, .bytesSlice data] }] := by
  refine ⟨calls.map (fun c => c.Target), calls.map (fun c => c.CallData), ?_⟩
  rw [Execute_trace lib client opts gasLimitPerCall resultSizeLimit methods calls hq hc]
  cases gasLimitPerCall <;> cases resultSizeLimit <;> rfl

/-- Witness of C6: no gas limit given, an explicit result size limit of 2048. -/
theorem execute_defaults_witness :
    ∃ targets data,
      ((sampleClient QuickCall (constChain [])).Execute sampleLib none none (some 2048)
          [balanceOfCall]).2
        = [{ opts := none, method := "execute",
             params := [.bigInt (some 60000), .bigInt (some 2048),
                        .addresses targets, .bytesSlice data] }] :=
  execute_defaults sampleLib (sampleClient QuickCall (constChain [])) none none (some 2048)
    [balanceOfCall] [⟨tokenAddress, [0x70, 0xa0, 0x82, 0x31, 0x01, 0x02]⟩] rfl rfl

/-- C7. When the arguments of at least one method fail to encode, `methodCallsToCallData`
returns an encoding error of one of the methods and no call list, `Aggregate` on a V1 client
and `Execute` on a QuickCall client both abort by panicking with that same error value
(the source's `panic(err)`), and neither makes a chain-client call nor returns a result. -/
theorem encoding_error_aborts (lib : AbiLib) (v1 qc : Client) (opts : Option CallOpts)
    (gasLimitPerCall resultSizeLimit : Option Int) (methods : List MethodCall)
    (hv : v1.version = V1) (hq : qc.version = QuickCall)
    (hbad : ∃ m ∈ methods, ∃ e, lib.Pack m.Method.Inputs m.Args = .error e) :
    ∃ e, (∃ m ∈ methods, lib.Pack m.Method.Inputs m.Args = .error e)
      ∧ methodCallsToCallData lib methods = .error e
      ∧ v1.Aggregate lib opts methods = (.panicked (.error e), [])
      ∧ qc.Execute lib opts gasLimitPerCall resultSizeLimit methods
          = (.panicked (.error e), []) := by
  obtain ⟨e, he, hm⟩ := methodCallsToCallDataLoop_error lib methods [] hbad
  have he2 : methodCallsToCallData lib methods = .error e := he
  have hne : v1.version ≠ QuickCall := by rw [hv]; exact V1_ne_QuickCall
  refine ⟨e, hm, he2, ?_, ?_⟩
  · simp [Client.Aggregate, hne, he2]
  · simp [Client.Execute, hq, he2]

/-- Witness of C7: the second of two methods has no argument for its declared input. -/
theorem encoding_error_aborts_witness :
    ∃ e, (∃ m ∈ [balanceOfCall, badCall], sampleLib.Pack m.Method.Inputs m.Args = .error e)
      ∧ methodCallsToCallData sampleLib [balanceOfCall, badCall] = .error e
      ∧ (sampleClient V1 (constChain [.bigInt 100, .bytesSlice [[1], [2]]])).Aggregate sampleLib none
            [balanceOfCall, badCall] = (.panicked (.error e), [])
      ∧ (sampleClient QuickCall (constChain [])).Execute sampleLib none none none
            [balanceOfCall, badCall] = (.panicked (.error e), []) :=
  encoding_error_aborts sampleLib (sampleClient V1 (constChain [.bigInt 100, .bytesSlice [[1], [2]]]))
    (sampleClient QuickCall (constChain [])) none none none [balanceOfCall, badCall] rfl rfl
    ⟨badCall, by simp, .external "argument count mismatch", rfl⟩

/-- C8. When the arguments of every method encode, `methodCallsToCallData` returns a call
list of the same length whose entry `i` has target `methods[i].Address` and call data
`methods[i].Method.ID` followed by the packing of `methods[i].Args`; and the targets and
call data that `Execute` hands to `execute` are the projections of that list, in order. -/
theorem call_data_in_order (lib : AbiLib) (client : Client) (opts : Option CallOpts)
    (gasLimitPerCall resultSizeLimit : Option Int) (methods : List MethodCall)
    (hq : client.version = QuickCall)
    (henc : ∀ m ∈ methods, ∃ d, lib.Pack m.Method.Inputs m.Args = .ok d) :
    ∃ calls, methodCallsToCallData lib methods = .ok calls
      ∧ calls.length = methods.length
      ∧ (∀ i (hm : i < methods.length) (hc : i < calls.length),
          calls[i].Target = methods[i].Address
          ∧ ∃ d, lib.Pack methods[i].Method.Inputs methods[i].Args = .ok d
              ∧ calls[i].CallData = methods[i].Method.ID ++ d)
      ∧ ∃ gas size,
          (client.Execute lib opts gasLimitPerCall resultSizeLimit methods).2
            = [{ opts := opts, method := "execute",
                 params := [.bigInt gas, .bigInt size,
                            .addresses (calls.map (fun c => c.Target)),
                            .bytesSlice (calls.map (fun c => c.CallData))] }] := by
  obtain ⟨calls, hcalls, hall⟩ := methodCallsToCallDataLoop_ok lib methods [] henc
  have hcalls2 : methodCallsToCallData lib methods = .ok calls := by
    simpa [methodCallsToCallData] using hcalls
  obtain ⟨hlen, hget⟩ := List.forall₂_iff_get.mp hall
  refine ⟨calls, hcalls2, hlen.symm, ?_, _, _,
    Execute_trace lib client opts gasLimitPerCall resultSizeLimit methods calls hq hcalls2⟩
  intro i hm hc
  obtain ⟨d, hd, hcd⟩ := hget i hm hc
  simp only [List.get_eq_getElem] at hd hcd
  rw [hcd]
  exact ⟨rfl, d, hd, rfl⟩

/-- Witness of C8: `balanceOf(addr1)` followed by `totalSupply()`. -/
theorem call_data_in_order_witness :
    ∃ calls, methodCallsToCallData sampleLib [balanceOfCall, totalSupplyCall] = .ok calls
      ∧ calls.length = [balanceOfCall, totalSupplyCall].length
      ∧ (∀ i (hm : i < [balanceOfCall, totalSupplyCall].length) (hc : i < calls.length),
          calls[i].Target = [balanceOfCall, totalSupplyCall][i].Address
          ∧ ∃ d, sampleLib.Pack [balanceOfCall, totalSupplyCall][i].Method.Inputs
                    [balanceOfCall, totalSupplyCall][i].Args = .ok d
              ∧ calls[i].CallData = [balanceOfCall, totalSupplyCall][i].Method.ID ++ d)
      ∧ ∃ gas size,
          ((sampleClient QuickCall (constChain [])).Execute sampleLib none none none
              [balanceOfCall, totalSupplyCall]).2
            = [{ opts := none, method := "execute",
                 params := [.bigInt gas, .bigInt size,
                            .addresses (calls.map (fun c => c.Target)),
                            .bytesSlice (calls.map (fun c => c.CallData))] }] :=
  call_data_in_order sampleLib (sampleClient QuickCall (constChain [])) none none none
    [balanceOfCall, totalSupplyCall] rfl
    (by
      intro m hm
      simp only [List.mem_cons, List.mem_singleton, List.not_mem_nil, or_false] at hm
      rcases hm with rfl | rfl
      · exact ⟨[0x01, 0x02], rfl⟩
      · exact ⟨[], rfl⟩)

/-- C9. For a version that is neither V1 nor QuickCall, `getAbi` and `New` fail with the
unknown-version error and no client is built; and a client that `New` does return carries
the requested version, which is then V1 or QuickCall. -/
theorem new_version (lib : AbiLib) (emb : Embedded) (address : String) (v : Version)
    (chain : ChainClient) :
    (v ≠ V1 → v ≠ QuickCall →
        Version.getAbi emb v = .error (.unknownVersion v)
        ∧ New lib emb address v chain = .error (.unknownVersion v))
    ∧ (∀ c, New lib emb address v chain = .ok c →
        c.version = v ∧ (c.version = V1 ∨ c.version = QuickCall)) := by
  constructor
  · intro h1 h2
    have hg : Version.getAbi emb v = .error (.unknownVersion v) := by
      simp [Version.getAbi, h1, h2]
    exact ⟨hg, by simp [New, hg]⟩
  · intro c hc
    unfold New at hc
    cases hg : Version.getAbi emb v with
    | error e => rw [hg] at hc; cases hc
    | ok parsed =>
      rw [hg] at hc
      simp only [Except.ok.injEq] at hc
      subst hc
      refine ⟨rfl, ?_⟩
      by_cases h1 : v = V1
      · exact Or.inl h1
      · by_cases h2 : v = QuickCall
        · exact Or.inr h2
        · simp [Version.getAbi, h1, h2] at hg

/-- Witness of C9: version 7 is refused, and building with QuickCall gives a QuickCall client. -/
theorem new_version_witness :
    (Version.getAbi sampleEmbedded 7 = .error (.unknownVersion 7)
      ∧ New sampleLib sampleEmbedded "0x0F27" 7 (constChain []) = .error (.unknownVersion 7))
    ∧ (∃ c, New sampleLib sampleEmbedded "0x0F27" QuickCall (constChain []) = .ok c
        ∧ c.version = QuickCall) :=
  ⟨(new_version sampleLib sampleEmbedded "0x0F27" 7 (constChain [])).1 (by decide) (by decide),
   ⟨_, rfl,
    ((new_version sampleLib sampleEmbedded "0x0F27" QuickCall (constChain [])).2 _ rfl).1⟩⟩

/-! ### The result slice and the result pointer -/

theorem aggregateBuild_results_nil (lib : AbiLib) (methods : List MethodCall) (out : List Any)
    (r : AggregateReturn) (h : aggregateBuild lib methods out = .returned r) :
    r.results = [] := by
  simp only [aggregateBuild] at h
  repeat' split at h
  all_goals first
    | (cases h; rfl)
    | cases h

/-- Whatever `Aggregate` returns, its `results` is the nil slice. -/
theorem Aggregate_results_nil (lib : AbiLib) (client : Client) (opts : Option CallOpts)
    (methods : List MethodCall) (r : AggregateReturn)
    (h : (client.Aggregate lib opts methods).1 = .returned r) : r.results = [] := by
  unfold Client.Aggregate at h
  by_cases hv : client.version = QuickCall
  · simp only [hv, if_true] at h
    cases h; rfl
  · simp only [hv, if_false] at h
    cases hc : methodCallsToCallData lib methods with
    | error e => simp only [hc] at h; cases h
    | ok calls =>
      simp only [hc] at h
      cases ho : client.contract.caller
          { opts := opts, method := "aggregate", params := [.calls calls] } with
      | error e => simp only [ho] at h; cases h; rfl
      | ok out =>
        simp only [ho] at h
        exact aggregateBuild_results_nil lib methods out r h

/-- The part of `Execute` after the chain client's answer always panics. -/
theorem executeBuild_panics (lib : AbiLib) (methods : List MethodCall) (out : List Any) :
    ∃ p, executeBuild lib methods out = .panicked p := by
  simp only [executeBuild]
  repeat' split
  all_goals exact ⟨_, rfl⟩

/-- Once the chain client has answered its call, `Execute` panics. -/
theorem Execute_answered_panics (lib : AbiLib) (client : Client) (opts : Option CallOpts)
    (gasLimitPerCall resultSizeLimit : Option Int) (methods : List MethodCall)
    (calls : List callData) (out : List Any) (hq : client.version = QuickCall)
    (hc : methodCallsToCallData lib methods = .ok calls)
    (hout : ∀ call, client.contract.caller call = .ok out) :
    ∃ p, (client.Execute lib opts gasLimitPerCall resultSizeLimit methods).1 = .panicked p := by
  simp only [Client.Execute, hq, hc, hout, ne_eq, not_true_eq_false, if_false]
  exact executeBuild_panics lib methods out

/-- With the nil slice that `Aggregate` and `Execute` pass, an empty first raw result makes
`unpackResults` panic on `results[0] = nil`, for any codec. -/
theorem unpackResults_empty_head (lib : AbiLib) (m : MethodCall) (ms : List MethodCall)
    (rs : List Bytes) (hlen : rs.length = ms.length) :
    unpackResults lib [] ([] :: rs) (m :: ms) = .panicked (.indexOutOfRange 0 0) := by
  simp [unpackResults, unpackResultsLoop, hlen]

/-- C2 (the code departs from the claim). Two single-output methods, block 100 and two
decodable raw results: `unpackResults` decodes both into its own slice, and `Aggregate`
returns block 100 with a nil `results`, not the two decoded values. -/
theorem aggregate_example_returns_nil_results :
    unpackResults sampleLib [] [[1, 2], [3]] [balanceOfCall, totalSupplyCall]
        = .returned { err := none, results := [.bigInt 258, .bigInt 3] }
    ∧ ((sampleClient V1 (constChain [.bigInt 100, .bytesSlice [[1, 2], [3]]])).Aggregate sampleLib
          none [balanceOfCall, totalSupplyCall]).1
        = .returned { blockNumber := some 100, results := [], err := none } := by
  constructor <;> rfl

/-- C3 (the code departs from the claim). One method and one empty raw result:
`unpackResults`, called with the nil slice as `Aggregate` and `Execute` call it, panics with
an index out of range at position 0, and so does `Aggregate`. -/
theorem unpack_empty_raw_panics :
    unpackResults sampleLib [] [[]] [balanceOfCall] = .panicked (.indexOutOfRange 0 0)
    ∧ ((sampleClient V1 (constChain [.bigInt 100, .bytesSlice [[]]])).Aggregate sampleLib
          none [balanceOfCall]).1
        = .panicked (.indexOutOfRange 0 0) := by
  constructor <;> rfl

/-- C5 (the code departs from the claim). A QuickCall client, one method, and a chain client
answering block 50, statuses `[0]` and one empty raw result: `Execute` makes its call and
then panics on the nil `result` pointer instead of returning one entry. -/
theorem execute_example_panics :
    (sampleClient QuickCall (constChain [.bigInt 50, .uint64Slice [0], .bytesSlice [[]]])).Execute
        sampleLib none none none [balanceOfCall]
      = (.panicked .nilDereference,
         [{ opts := none, method := "execute",
            params := [.bigInt (some 60000), .bigInt (some 1024),
                       .addresses [tokenAddress],
                       .bytesSlice [[0x70, 0xa0, 0x82, 0x31, 0x01, 0x02]]] }]) := by
  rfl

end Multicall

namespace Static

open Multicall

/-- C10. When the name is a method of the ABI, `CallStaticWithName` gives exactly what
`CallStaticWithMethod` gives for that method with the same client, options and arguments
(same outcome and same call messages); when it is not, `CallStaticWithName` returns the
method-not-found error with nil results and sends no message, whatever the codec does. -/
theorem call_static_entry_points (lib : AbiLib) (client : EthClient) (abi : ABI)
    (opts : Option Opts) (methodName : String) (args : List Any) :
    (∀ method, abi.Methods.lookup methodName = some method →
        CallStaticWithName lib client (some abi) opts methodName args
          = CallStaticWithMethod lib client opts method args)
    ∧ (abi.Methods.lookup methodName = none →
        CallStaticWithName lib client (some abi) opts methodName args
          = (.returned { results := [], err := some (.methodNotFound methodName) }, [])) := by
  constructor
  · intro method h
    simp [CallStaticWithName, CallStaticWithMethod, h]
  · intro h
    simp [CallStaticWithName, h]

/-- Witness of C10: `totalSupply` is found and decoded through the shared path, and
`decimals` is not a method of the sample ABI. -/
theorem call_static_entry_points_witness :
    (CallStaticWithName sampleLib (constEth [3, 232]) (some sampleAbi) (some sampleOpts)
          "totalSupply" []
        = CallStaticWithMethod sampleLib (constEth [3, 232]) (some sampleOpts) totalSupplyMethod [])
    ∧ CallStaticWithMethod sampleLib (constEth [3, 232]) (some sampleOpts) totalSupplyMethod []
        = (.returned { results := [.bigInt 1000], err := none },
           [{ From := addr1, To := some tokenAddress, Data := [0x18, 0x16, 0x0d, 0xdd], Gas := 0,
              GasPrice := none, GasFeeCap := none, GasTipCap := none, Value := none,
              AccessList := [] }])
    ∧ CallStaticWithName sampleLib (constEth [3, 232]) (some sampleAbi) (some sampleOpts)
          "decimals" []
        = (.returned { results := [], err := some (.methodNotFound "decimals") }, []) :=
  ⟨(call_static_entry_points sampleLib (constEth [3, 232]) sampleAbi (some sampleOpts)
      "totalSupply" []).1 totalSupplyMethod (by decide),
   by rfl,
   (call_static_entry_points sampleLib (constEth [3, 232]) sampleAbi (some sampleOpts)
      "decimals" []).2 (by decide)⟩

end Static
